import Mathlib

/-!
Verification of the retrieval + audit core of the CampaignIQ marketing
assistant, shallowly embedded in Lean from the Python source.

The embedding covers:
* the audit-status classifier `determine_overall_status`;
* the similarity query `find_similar_campaigns` (numpy argsort top-k over
  cosine-similarity scores);
* index construction `initialize_and_index` (content filtering + batch
  document embedding);
* the draft-option batch construction (regex split on the case-insensitive
  marker pattern for option headers);
* `generate_content` (prompt construction indexing the first three
  exemplars outside the try block, generative call inside it);
* `finalize_campaign` (appends to the tracker sheet and, for approved
  drafts, to the main corpus sheet).

External collaborators (the embedding service, the sklearn
cosine-similarity call, the generative model) are modelled as explicit
function parameters; their float outputs are modelled over `ℚ`.  A Python
exception that escapes a function is modelled as `Except.error`; a value
returned normally (including an inline error string produced by a
try/except handler) is `Except.ok`.
-/

/-! ## Audit status classifier -/

/-- Substring test on character lists: `marker` occurs contiguously in the
list.  Models Python's `marker in text` for strings. -/
def listContains (marker : List Char) : List Char → Bool
  | [] => marker.isEmpty
  | c :: rest => marker.isPrefixOf (c :: rest) || listContains marker rest

/-- Models Python's `marker in text` substring containment. -/
def containsSubstr (text marker : String) : Bool :=
  listContains marker.toList text.toList

/-- The hard-fail marker literal from the source
(`determine_overall_status`), codepoint-exact. -/
def failMarker : String :=
  String.mk [Char.ofNat 0xf8ff, Char.ofNat 0xfc, Char.ofNat 0xf5, Char.ofNat 0xeb] ++ " FAIL"

/-- The needs-info marker literal from the source, codepoint-exact. -/
def needsInfoMarker : String :=
  String.mk [Char.ofNat 0x201a, Char.ofNat 0xf6, Char.ofNat 0x2020, Char.ofNat 0xd4,
    Char.ofNat 0x220f, Char.ofNat 0xe8] ++ " NEEDS INFO"

/-- The pass marker literal from the source, codepoint-exact. -/
def passMarker : String :=
  String.mk [Char.ofNat 0x201a, Char.ofNat 0xfa, Char.ofNat 0xd6] ++ " PASS"

/-- Embedding of `determine_overall_status(audit_result_text)`:
empty text is falsy in Python, then the three substring checks in source
order. -/
def determine_overall_status (audit_result_text : String) : String :=
  if audit_result_text = "" then "pending"
  else if containsSubstr audit_result_text failMarker then "non-compliant"
  else if containsSubstr audit_result_text needsInfoMarker then "needs-review"
  else if containsSubstr audit_result_text passMarker then "compliant"
  else "pending"

/-! ## Similarity index and query -/

/-- An embedding vector.  The source's float components are modelled over
`ℚ`. -/
abbrev Vec := List ℚ

/-- A similarity stand-in used by witnesses for the external
cosine-similarity collaborator: projects the first component of the
document embedding (so concrete scores stay literal and computable). -/
def headSim : Vec → Vec → ℚ := fun _ d => d.getD 0 0

/-- The indexed dataframe `st.session_state.indexed_df`: rows of
`(content, embedding)` plus whether the `embeddings` column exists (the
failure path stores an empty dataframe without that column). -/
structure DF where
  rows : List (String × Vec)
  hasEmbCol : Bool

/-- Comparison key used by the numpy `argsort` model: index `i` sorts no
later than `j` when its similarity is smaller, or on an exact tie when
`i ≤ j`.  The tie case models numpy's behavior on its small-array
insertion-sort path; the default quicksort is not stable for larger
arrays, so theorems about exact-tie ORDER are stated only for two-entry
indices (tie-independent conclusions hold for any ascending argsort). -/
def keyLe (sims : List ℚ) (i j : ℕ) : Bool :=
  decide (sims.getD i 0 < sims.getD j 0) ||
    (decide (sims.getD i 0 = sims.getD j 0) && decide (i ≤ j))

/-- Insertion step of the stable ascending argsort. -/
def insertKey (sims : List ℚ) (i : ℕ) : List ℕ → List ℕ
  | [] => [i]
  | j :: t => if keyLe sims i j then i :: j :: t else j :: insertKey sims i t

/-- Model of `np.argsort(similarities)`: the indices `0..k-1` sorted by
ascending similarity.  Ties are placed in insertion order, which matches
numpy only on its small-array insertion-sort path (the default quicksort
leaves exact-tie order unspecified above that threshold), so tie-order
conclusions are drawn only for two-entry similarity rows. -/
def argsortAsc (sims : List ℚ) : List ℕ :=
  (List.range sims.length).foldr (insertKey sims) []

/-- Model of the Python slice `l[-n:]`: the last `min n (length l)`
elements (and the whole list when `n = 0`, as in Python). -/
def lastSlice (l : List ℕ) (n : ℕ) : List ℕ :=
  if n = 0 then l else l.drop (l.length - n)

/-- Model of `np.argsort(similarities)[-n:][::-1]`. -/
def topNIndices (sims : List ℚ) (n : ℕ) : List ℕ :=
  (lastSlice (argsortAsc sims) n).reverse

/-- The similarity row `cosine_similarity([query_embedding],
list(df['embeddings']))[0]`, with the sklearn call abstracted as the
parameter `cosSim`. -/
def simsOf (cosSim : Vec → Vec → ℚ) (q : Vec) (df : DF) : List ℚ :=
  (df.rows.map Prod.snd).map (cosSim q)

/-- Positional row lookup `df.iloc[i]["content"]`. -/
def contentAt (df : DF) (i : ℕ) : String :=
  (df.rows.map Prod.fst).getD i ""

/-- Embedding of `find_similar_campaigns(query, df, n)`.  The guard
returns `[]` before the query-embedding service is consulted; the service
result is the `embedQuery` parameter (`Except.error` = the `genai`
call raised).  The function has no try/except, so an embedding error
escapes as `Except.error`. -/
def find_similar_campaigns (cosSim : Vec → Vec → ℚ)
    (embedQuery : Except String Vec) (df : DF) (n : ℕ) :
    Except String (List String) :=
  if df.rows.isEmpty || !df.hasEmbCol then .ok []
  else match embedQuery with
    | .error e => .error e
    | .ok q => .ok ((topNIndices (simsOf cosSim q df) n).map (contentAt df))

/-- Decidable equality for `Except` results, so witnesses can be checked
by evaluation. -/
instance instDecEqExcept {ε α : Type} [DecidableEq ε] [DecidableEq α] :
    DecidableEq (Except ε α) := fun a b =>
  match a, b with
  | .ok x, .ok y =>
    if h : x = y then .isTrue (by rw [h])
    else .isFalse (fun hh => h (Except.ok.inj hh))
  | .error x, .error y =>
    if h : x = y then .isTrue (by rw [h])
    else .isFalse (fun hh => h (Except.error.inj hh))
  | .ok _, .error _ => .isFalse (fun hh => Except.noConfusion hh)
  | .error _, .ok _ => .isFalse (fun hh => Except.noConfusion hh)

/-! ## Index construction -/

/-- The corpus contents kept by `initialize_and_index`: `dropna` removes
missing contents, then rows with empty content are removed, order
preserved. -/
def filteredContents (corpus : List (Option String)) : List String :=
  (corpus.filterMap id).filter (fun c => c ≠ "")

/-- Embedding of the indexing part of `initialize_and_index`: filter the
corpus, batch-embed the surviving contents via the external service
`embedBatch` (one vector per input, in input order), and store content
next to its embedding. -/
def initialize_and_index (corpus : List (Option String))
    (embedBatch : List String → List Vec) : List (String × Vec) :=
  (filteredContents corpus).zip (embedBatch (filteredContents corpus))

/-- A trivial batch-embedding stand-in used by witnesses: one empty vector
per input, in input order. -/
def constEmbed : List String → List Vec := fun l => l.map (fun _ => [])

/-! ## Draft options and the option-marker split -/

/-- One candidate draft, as assembled by the generate-button handler. -/
structure DraftOption where
  id : ℕ
  campaign_text : String
  t_and_c_text : String
  audit_result : String
  is_editing : Bool
  deriving DecidableEq, Repr

/-- Word characters for the regex word boundary in the option marker
pattern.  This is Python re's `\w` restricted to ASCII, where the two
agree exactly; Python's Unicode `\w` additionally covers non-ASCII
letters, so marker-scanning theorems are scoped to ASCII text. -/
def isWordChar (c : Char) : Bool :=
  c.isAlpha || c.isDigit || c = '_'

/-- The word boundary before the marker: satisfied at the start of the
string or after a non-word character. -/
def boundaryOk : Option Char → Bool
  | none => true
  | some p => !isWordChar p

/-- Tries to match the regex body `option \d+:` case-insensitively at the
head of the list; on success returns the remaining characters after the
match.  `\d` is modelled as the ASCII digits, on which it coincides with
Python re's Unicode `\d`; theorems about the scanner are therefore scoped
to ASCII text. -/
def matchMarker : List Char → Option (List Char)
  | c0 :: c1 :: c2 :: c3 :: c4 :: c5 :: c6 :: rest =>
    if [c0, c1, c2, c3, c4, c5].map Char.toLower = ['o', 'p', 't', 'i', 'o', 'n'] ∧
        c6 = ' ' then
      if rest.takeWhile Char.isDigit = [] then none
      else
        match rest.dropWhile Char.isDigit with
        | d :: rest2 => if d = ':' then some rest2 else none
        | [] => none
    else none
  | _ => none

/-- Fuel-indexed scanner for `re.split` on the option-marker pattern: cuts
the text at every leftmost non-overlapping marker match whose position
satisfies the word boundary.  `acc` is the current segment reversed,
`prev` the previous character of the original text. -/
def splitFuel : ℕ → List Char → Option Char → List Char → List (List Char)
  | 0, acc, _, l => [acc.reverse ++ l]
  | _ + 1, acc, _, [] => [acc.reverse]
  | fuel + 1, acc, prev, c :: rest =>
    if boundaryOk prev then
      match matchMarker (c :: rest) with
      | some rest2 => acc.reverse :: splitFuel fuel [] (some ':') rest2
      | none => splitFuel fuel (c :: acc) (some c) rest
    else splitFuel fuel (c :: acc) (some c) rest

/-- Model of `re.split(r'(?i)\boption \d+:', text)`. -/
def splitMarker (l : List Char) : List (List Char) :=
  splitFuel (l.length + 1) [] none l

/-- Whether the marker pattern (with its word boundary) matches anywhere
in the text, `prev` being the character before the scanned part. -/
def hasMarkerFrom : Option Char → List Char → Bool
  | _, [] => false
  | prev, c :: rest =>
    (boundaryOk prev && (matchMarker (c :: rest)).isSome) || hasMarkerFrom (some c) rest

/-- Python's whitespace set: exactly the codepoints for which
`str.isspace()` is true, which is the set `str.strip()` removes
(9-13, 28-32, 0x85, 0xa0, 0x1680, 0x2000-0x200a, 0x2028, 0x2029, 0x202f,
0x205f, 0x3000). -/
def pyIsSpace (c : Char) : Bool :=
  ([0x9, 0xa, 0xb, 0xc, 0xd, 0x1c, 0x1d, 0x1e, 0x1f, 0x20, 0x85, 0xa0, 0x1680,
    0x2000, 0x2001, 0x2002, 0x2003, 0x2004, 0x2005, 0x2006, 0x2007, 0x2008,
    0x2009, 0x200a, 0x2028, 0x2029, 0x202f, 0x205f, 0x3000] : List ℕ).contains c.toNat

/-- Model of Python's `str.strip()` on a character list, removing Python's
whitespace set from both ends. -/
def pyStrip (l : List Char) : List Char :=
  ((l.dropWhile pyIsSpace).reverse.dropWhile pyIsSpace).reverse

/-- The list comprehension in the generate-button handler:
`[opt.strip() for opt in re.split(r'(?i)\boption \d+:', generated_copy) if opt.strip()]`. -/
def parseOptions (generated_copy : String) : List String :=
  ((splitMarker generated_copy.toList).map (fun seg => String.mk (pyStrip seg))).filter
    (fun t => t ≠ "")

/-- The DraftOption batch built from the generative output: 1-based ids,
shared terms text, empty audit, not editing. -/
def makeDraftOptions (generated_copy t_and_c : String) : List DraftOption :=
  (parseOptions generated_copy).enum.map
    (fun p => ⟨p.1 + 1, p.2, t_and_c, "", false⟩)

/-! ## Content generation -/

/-- The inline error prefix the source's try/except handlers prepend
(codepoint-exact). -/
def errorPrefix : String :=
  String.mk [Char.ofNat 0xf8ff, Char.ofNat 0xfc, Char.ofNat 0xed, Char.ofNat 0x2022] ++
    " Error: "

/-- The generation prompt (abridged: the prompt wording is an external
concern; what matters is that it interpolates the query, the channel and
the first three exemplars). -/
def mkGeneratePrompt (query channel e0 e1 e2 : String) : String :=
  "You are a creative marketing genius at Uber India. Generate 3 variations for a " ++
    channel ++ " campaign. Goal: " ++ query ++ " Inspiration: " ++
    e0 ++ " " ++ e1 ++ " " ++ e2

/-- Embedding of `generate_content(query, examples, channel)`.  The prompt
f-string indexes `examples[0]`, `examples[1]`, `examples[2]` BEFORE the
try block, so with fewer than three exemplars the function raises
IndexError (`Except.error`); a failure of the generative call itself is
caught and returned as an inline error string (`Except.ok`). -/
def generate_content (query : String) (examples : List String) (channel : String)
    (model : String → Except String String) : Except String String :=
  match examples.get? 0, examples.get? 1, examples.get? 2 with
  | some e0, some e1, some e2 =>
    match model (mkGeneratePrompt query channel e0 e1 e2) with
    | .ok t => .ok t
    | .error e => .ok (errorPrefix ++ e)
  | _, _, _ => .error "IndexError: list index out of range"

/-! ## Finalizing a campaign -/

/-- The two Campaign Store tables: the past-campaigns corpus sheet
("Marketing Copilot Data") and the tracker sheet ("Campaign Tracker DB"),
each a list of rows. -/
structure StoreState where
  corpusTable : List (List String)
  trackerTable : List (List String)
  deriving DecidableEq, Repr

/-- The row `finalize_campaign` appends to the tracker sheet. -/
def trackerRow (opt : DraftOption) (channel status uuid timestamp : String) :
    List String :=
  [uuid, opt.campaign_text, channel, status, opt.t_and_c_text, opt.audit_result,
    timestamp]

/-- The row `finalize_campaign` appends to the main corpus sheet for
approved drafts (the float 5.0 modelled as its literal text). -/
def mainRow (opt : DraftOption) (today : String) : List String :=
  ["PUSH_GEN_" ++ today, "Push Notification", "Pan-India", "en-IN", "Promotional",
    "Drive_Rides", "All_Riders", opt.campaign_text, "CTR", "5.0", today,
    "generated, approved"]

/-- Embedding of `finalize_campaign(option, channel, status)` acting on
the store: always appends a row to the tracker sheet, and when the status
is "Approved & Used" additionally appends a row to the main corpus
sheet.  The non-deterministic uuid/timestamp/date values are parameters. -/
def finalize_campaign (opt : DraftOption) (channel status uuid timestamp today : String)
    (s : StoreState) : StoreState :=
  let s1 := StoreState.mk s.corpusTable
    (s.trackerTable ++ [trackerRow opt channel status uuid timestamp])
  if status = "Approved & Used" then
    StoreState.mk (s1.corpusTable ++ [mainRow opt today]) s1.trackerTable
  else s1

/-- C5 amended: the classifier returns "pending" iff the text is empty or
contains none of the three markers; every non-empty text containing at
least one marker receives a non-pending status. -/
theorem classify_pending_iff (t : String) :
    determine_overall_status t = "pending" ↔
      (t = "" ∨ (containsSubstr t failMarker = false ∧
        containsSubstr t needsInfoMarker = false ∧
        containsSubstr t passMarker = false)) := by
  unfold determine_overall_status
  split_ifs with h1 h2 h3 h4 <;> simp_all


/-! ## Theorems for the audit status classifier -/

/-- C1: the classifier applies the fixed severity precedence
(empty → pending; fail marker anywhere → non-compliant regardless of other
markers; else needs-info → needs-review regardless of pass markers; else
pass → compliant; else pending), independent of marker position. -/
theorem classify_precedence (t : String) :
    (t = "" → determine_overall_status t = "pending") ∧
    (t ≠ "" → containsSubstr t failMarker = true →
      determine_overall_status t = "non-compliant") ∧
    (t ≠ "" → containsSubstr t failMarker = false →
      containsSubstr t needsInfoMarker = true →
      determine_overall_status t = "needs-review") ∧
    (t ≠ "" → containsSubstr t failMarker = false →
      containsSubstr t needsInfoMarker = false →
      containsSubstr t passMarker = true →
      determine_overall_status t = "compliant") ∧
    (t ≠ "" → containsSubstr t failMarker = false →
      containsSubstr t needsInfoMarker = false →
      containsSubstr t passMarker = false →
      determine_overall_status t = "pending") := by
  refine ⟨?_, ?_, ?_, ?_, ?_⟩ <;> intros <;> simp_all [determine_overall_status]

/-- Witness for C1: a text holding both a pass and a fail marker is
classified non-compliant. -/
theorem classify_precedence_witness :
    ((passMarker ++ " ok " ++ failMarker) ≠ "" ∧
      containsSubstr (passMarker ++ " ok " ++ failMarker) failMarker = true) ∧
    determine_overall_status (passMarker ++ " ok " ++ failMarker) = "non-compliant" :=
  ⟨⟨by decide, by decide⟩,
    (classify_precedence (passMarker ++ " ok " ++ failMarker)).2.1 (by decide) (by decide)⟩

/-- C5 counterexample: the non-empty text "no markers here" contains no
marker, and the classifier returns "pending" on it, so "pending iff the
text is empty" fails. -/
theorem classify_pending_nonempty_counterexample :
    determine_overall_status "no markers here" = "pending" ∧
      ("no markers here" : String) ≠ "" := by
  constructor
  · decide
  · decide

/-! ## Order lemmas for the argsort model -/

/-- The argsort key order is reflexive. -/
lemma keyLe_refl (sims : List ℚ) (i : ℕ) : keyLe sims i i = true := by
  simp [keyLe]

/-- The argsort key order is total. -/
lemma keyLe_total (sims : List ℚ) (i j : ℕ) :
    keyLe sims i j = true ∨ keyLe sims j i = true := by
  simp only [keyLe, Bool.or_eq_true, Bool.and_eq_true, decide_eq_true_eq]
  rcases lt_trichotomy (sims.getD i 0) (sims.getD j 0) with h | h | h
  · exact Or.inl (Or.inl h)
  · rcases Nat.le_total i j with hle | hle
    · exact Or.inl (Or.inr ⟨h, hle⟩)
    · exact Or.inr (Or.inr ⟨h.symm, hle⟩)
  · exact Or.inr (Or.inl h)

/-- The argsort key order is transitive. -/
lemma keyLe_trans {sims : List ℚ} {i j k : ℕ} (h1 : keyLe sims i j = true)
    (h2 : keyLe sims j k = true) : keyLe sims i k = true := by
  simp only [keyLe, Bool.or_eq_true, Bool.and_eq_true, decide_eq_true_eq] at h1 h2 ⊢
  rcases h1 with h1 | ⟨h1e, h1le⟩ <;> rcases h2 with h2 | ⟨h2e, h2le⟩
  · exact Or.inl (h1.trans h2)
  · exact Or.inl (by rw [← h2e]; exact h1)
  · exact Or.inl (by rw [h1e]; exact h2)
  · exact Or.inr ⟨h1e.trans h2e, h1le.trans h2le⟩

/-- The key order refines the similarity order. -/
lemma keyLe_le {sims : List ℚ} {i j : ℕ} (h : keyLe sims i j = true) :
    sims.getD i 0 ≤ sims.getD j 0 := by
  simp only [keyLe, Bool.or_eq_true, Bool.and_eq_true, decide_eq_true_eq] at h
  rcases h with h | ⟨h, _⟩
  · exact h.le
  · exact h.le

/-- Inserting an index permutes consing it. -/
lemma insertKey_perm (sims : List ℚ) (i : ℕ) (l : List ℕ) :
    (insertKey sims i l).Perm (i :: l) := by
  induction l with
  | nil => exact List.Perm.refl _
  | cons j t ih =>
    rw [insertKey]
    by_cases h : keyLe sims i j = true
    · rw [if_pos h]
    · rw [if_neg h]
      exact (ih.cons j).trans (List.Perm.swap i j t)

/-- Inserting an index preserves sortedness by the key order. -/
lemma insertKey_pairwise (sims : List ℚ) (i : ℕ) (l : List ℕ)
    (h : l.Pairwise (fun a b => keyLe sims a b = true)) :
    (insertKey sims i l).Pairwise (fun a b => keyLe sims a b = true) := by
  induction l with
  | nil => simp [insertKey]
  | cons j t ih =>
    rw [insertKey]
    by_cases hij : keyLe sims i j = true
    · rw [if_pos hij]
      refine List.Pairwise.cons ?_ h
      intro x hx
      rcases List.mem_cons.mp hx with rfl | hxt
      · exact hij
      · exact keyLe_trans hij (List.rel_of_pairwise_cons h hxt)
    · rw [if_neg hij]
      have hji : keyLe sims j i = true := (keyLe_total sims i j).resolve_left hij
      refine List.Pairwise.cons ?_ (ih h.of_cons)
      intro x hx
      have hx2 : x ∈ i :: t := (insertKey_perm sims i t).mem_iff.mp hx
      rcases List.mem_cons.mp hx2 with rfl | hxt
      · exact hji
      · exact List.rel_of_pairwise_cons h hxt

/-- The argsort fold permutes its input index list. -/
lemma foldr_insertKey_perm (sims : List ℚ) (l : List ℕ) :
    (l.foldr (insertKey sims) []).Perm l := by
  induction l with
  | nil => exact List.Perm.refl _
  | cons a t ih => exact (insertKey_perm sims a _).trans (ih.cons a)

/-- `argsortAsc sims` is a permutation of the index range. -/
lemma argsortAsc_perm (sims : List ℚ) :
    (argsortAsc sims).Perm (List.range sims.length) :=
  foldr_insertKey_perm sims (List.range sims.length)

/-- The argsort fold is sorted by the key order. -/
lemma foldr_insertKey_pairwise (sims : List ℚ) (l : List ℕ) :
    (l.foldr (insertKey sims) []).Pairwise (fun a b => keyLe sims a b = true) := by
  induction l with
  | nil => exact List.Pairwise.nil
  | cons a t ih => exact insertKey_pairwise sims a _ ih

/-- `argsortAsc sims` is sorted ascending by the key order. -/
lemma argsortAsc_pairwise (sims : List ℚ) :
    (argsortAsc sims).Pairwise (fun a b => keyLe sims a b = true) :=
  foldr_insertKey_pairwise sims _

/-- `argsortAsc` produces one index per similarity. -/
lemma argsortAsc_length (sims : List ℚ) :
    (argsortAsc sims).length = sims.length := by
  simpa using (argsortAsc_perm sims).length_eq

/-- Length of the top-`n` selection, for `n ≥ 1`. -/
lemma topNIndices_length (sims : List ℚ) (n : ℕ) (hn : n ≠ 0) :
    (topNIndices sims n).length = min n sims.length := by
  simp only [topNIndices, lastSlice, if_neg hn, List.length_reverse, List.length_drop,
    argsortAsc_length]
  omega

/-- The top-`n` selection is sorted descending by the key order. -/
lemma topNIndices_pairwise (sims : List ℚ) (n : ℕ) :
    (topNIndices sims n).Pairwise (fun a b => keyLe sims b a = true) := by
  have h2 : (lastSlice (argsortAsc sims) n).Pairwise (fun a b => keyLe sims a b = true) := by
    unfold lastSlice
    split_ifs
    · exact argsortAsc_pairwise sims
    · exact (argsortAsc_pairwise sims).sublist (List.drop_sublist _ _)
  rw [topNIndices, List.pairwise_reverse]
  exact h2

/-- When `n` covers the whole index, every index is selected. -/
lemma topNIndices_mem (sims : List ℚ) (n i : ℕ) (hk : sims.length ≤ n)
    (hi : i < sims.length) : i ∈ topNIndices sims n := by
  have hmem : i ∈ argsortAsc sims :=
    (argsortAsc_perm sims).mem_iff.mpr (List.mem_range.mpr hi)
  have hfull : lastSlice (argsortAsc sims) n = argsortAsc sims := by
    unfold lastSlice
    split_ifs with h0
    · rfl
    · rw [argsortAsc_length]
      have hz : sims.length - n = 0 := by omega
      rw [hz, List.drop_zero]
  simp [topNIndices, hfull, hmem]

/-- On a present index, the query returns the contents selected by the
top-`n` indices of the similarity row. -/
lemma find_similar_present (cosSim : Vec → Vec → ℚ) (q : Vec) (df : DF)
    (n : ℕ) (hcol : df.hasEmbCol = true) :
    find_similar_campaigns cosSim (.ok q) df n =
      .ok ((topNIndices (simsOf cosSim q df) n).map (contentAt df)) := by
  obtain ⟨rows, col⟩ := df
  rcases rows with _ | ⟨r, rs⟩
  · simp [find_similar_campaigns, simsOf, topNIndices, argsortAsc, lastSlice]
  · simp only [DF.hasEmbCol] at hcol
    subst hcol
    rfl

/-- On an absent index the query answers the empty list, whatever the
embedding service would have produced. -/
lemma find_similar_absent (cosSim : Vec → Vec → ℚ) (embedQuery : Except String Vec)
    (df : DF) (n : ℕ) (h : df.rows = [] ∨ df.hasEmbCol = false) :
    find_similar_campaigns cosSim embedQuery df n = .ok [] := by
  rcases h with h | h <;> simp [find_similar_campaigns, h]

/-- The similarity row has one score per indexed row. -/
lemma simsOf_length (cosSim : Vec → Vec → ℚ) (q : Vec) (df : DF) :
    (simsOf cosSim q df).length = df.rows.length := by
  simp [simsOf]

/-! ## Theorems for the similarity query -/

/-- C3: on a present index and `n ≥ 1`, the query returns exactly
`min n k` contents (`k` the index size), the selected similarities are
non-increasing along the returned sequence, and when `n` covers the index
no entry is excluded (no similarity threshold). -/
theorem query_topk_count_and_order (cosSim : Vec → Vec → ℚ) (q : Vec) (df : DF) (n : ℕ)
    (hn : 1 ≤ n) (hcol : df.hasEmbCol = true) :
    find_similar_campaigns cosSim (.ok q) df n =
        .ok ((topNIndices (simsOf cosSim q df) n).map (contentAt df)) ∧
      ((topNIndices (simsOf cosSim q df) n).map (contentAt df)).length =
        min n df.rows.length ∧
      ((topNIndices (simsOf cosSim q df) n).map
          (fun i => (simsOf cosSim q df).getD i 0)).Pairwise (fun a b => b ≤ a) ∧
      (df.rows.length ≤ n → ∀ i < df.rows.length,
        i ∈ topNIndices (simsOf cosSim q df) n) := by
  refine ⟨find_similar_present cosSim q df n hcol, ?_, ?_, ?_⟩
  · rw [List.length_map, topNIndices_length _ _ (by omega), simsOf_length]
  · rw [List.pairwise_map]
    exact (topNIndices_pairwise _ n).imp (fun h => keyLe_le h)
  · intro hkn i hi
    exact topNIndices_mem _ n i (by rw [simsOf_length]; exact hkn)
      (by rw [simsOf_length]; exact hi)

/-- Witness for C3 on a two-entry index with `n = 1`. -/
theorem query_topk_count_and_order_witness :
    (1 ≤ 1 ∧ (DF.mk [("a", [(2 : ℚ)]), ("b", [1])] true).hasEmbCol = true) ∧
      find_similar_campaigns headSim (.ok [1])
        (DF.mk [("a", [(2 : ℚ)]), ("b", [1])] true) 1 = .ok ["a"] :=
  ⟨⟨le_refl 1, rfl⟩,
    (query_topk_count_and_order headSim [1]
      (DF.mk [("a", [(2 : ℚ)]), ("b", [1])] true) 1 (le_refl 1) rfl).1⟩

/-- C2 counterexample: two entries with identical embeddings (hence
exactly equal cosine similarity) are returned with the HIGHER original
index first, not in insertion order. -/
theorem query_tie_counterexample :
    find_similar_campaigns headSim (.ok [1])
        (DF.mk [("first", [(1 : ℚ)]), ("second", [1])] true) 2 =
        .ok ["second", "first"] ∧
      find_similar_campaigns headSim (.ok [1])
        (DF.mk [("first", [(1 : ℚ)]), ("second", [1])] true) 2 ≠
        .ok ["first", "second"] := by
  have h1 : find_similar_campaigns headSim (.ok [1])
      (DF.mk [("first", [(1 : ℚ)]), ("second", [1])] true) 2 =
      .ok ["second", "first"] := rfl
  refine ⟨h1, fun h => ?_⟩
  have h2 := h1.symm.trans h
  simp at h2

/-- C2 amended: exact ties are not broken toward the lower index.  On a
two-entry index whose rows carry identical embeddings — an array size on
numpy's stable insertion-sort path, so the model is exact — the query
selects and returns the HIGHER-index entry first: with `n = 1` only the
second row's content is returned, and with `n = 2` the two contents come
back in reverse insertion order.  (For larger arrays numpy's default
quicksort leaves exact-tie order unspecified.) -/
theorem query_tie_two_entry (cosSim : Vec → Vec → ℚ) (q e : Vec) (c0 c1 : String) :
    find_similar_campaigns cosSim (.ok q) (DF.mk [(c0, e), (c1, e)] true) 1 =
        .ok [c1] ∧
      find_similar_campaigns cosSim (.ok q) (DF.mk [(c0, e), (c1, e)] true) 2 =
        .ok [c1, c0] := by
  have hsims : simsOf cosSim q (DF.mk [(c0, e), (c1, e)] true) =
      [cosSim q e, cosSim q e] := rfl
  have hk : keyLe [cosSim q e, cosSim q e] 0 1 = true := by
    simp [keyLe]
  have hsort : argsortAsc [cosSim q e, cosSim q e] = [0, 1] := by
    unfold argsortAsc
    have hr : List.range ([cosSim q e, cosSim q e] : List ℚ).length = [0, 1] := rfl
    rw [hr]
    simp only [List.foldr_cons, List.foldr_nil, insertKey]
    rw [if_pos hk]
  have h1 := find_similar_present cosSim q (DF.mk [(c0, e), (c1, e)] true) 1 rfl
  have h2 := find_similar_present cosSim q (DF.mk [(c0, e), (c1, e)] true) 2 rfl
  constructor
  · rw [h1, hsims]
    simp only [topNIndices]
    rw [hsort]
    rfl
  · rw [h2, hsims]
    simp only [topNIndices]
    rw [hsort]
    rfl

/-- C10: with an absent index (no rows, or no embeddings column), the
query returns the empty list even when the embedding service would have
failed — the service is never consulted. -/
theorem query_absent_index_empty (cosSim : Vec → Vec → ℚ)
    (embedQuery : Except String Vec) (df : DF) (n : ℕ)
    (h : df.rows = [] ∨ df.hasEmbCol = false) :
    find_similar_campaigns cosSim embedQuery df n = .ok [] :=
  find_similar_absent cosSim embedQuery df n h

/-- Witness for C10: empty dataframe without embeddings column, erroring
embedding service. -/
theorem query_absent_index_empty_witness :
    ((DF.mk [] false).rows = [] ∨ (DF.mk [] false).hasEmbCol = false) ∧
      find_similar_campaigns headSim (.error "EmbeddingError") (DF.mk [] false) 3 =
        .ok [] :=
  ⟨Or.inl rfl,
    query_absent_index_empty headSim (.error "EmbeddingError") (DF.mk [] false) 3
      (Or.inl rfl)⟩

/-- C6 counterexample: on a present index, a query-embedding failure is
NOT caught inside `find_similar_campaigns` — it escapes as a fault
(`Except.error`), contradicting "all external-call failures are caught at
the call site". -/
theorem embedding_failure_propagates :
    find_similar_campaigns headSim (.error "EmbeddingError")
      (DF.mk [("a", [(1 : ℚ)])] true) 3 = .error "EmbeddingError" := rfl

/-- C6 amended: generative-model call failures in `generate_content` are
caught and converted to an inline error string, but a query-embedding
failure inside `find_similar_campaigns` propagates to the caller
uncaught. -/
theorem error_policy_amended (q ch e e0 e1 e2 : String) (rest : List String)
    (cosSim : Vec → Vec → ℚ) (df : DF) (n : ℕ)
    (hrows : df.rows ≠ []) (hcol : df.hasEmbCol = true) :
    generate_content q (e0 :: e1 :: e2 :: rest) ch (fun _ => .error e) =
        .ok (errorPrefix ++ e) ∧
      find_similar_campaigns cosSim (.error e) df n = .error e := by
  constructor
  · rfl
  · obtain ⟨rows, col⟩ := df
    rcases rows with _ | ⟨r, rs⟩
    · exact absurd rfl hrows
    · simp only [DF.hasEmbCol] at hcol
      subst hcol
      rfl

/-- Witness for the amended C6. -/
theorem error_policy_amended_witness :
    ((DF.mk [("a", [(1 : ℚ)])] true).rows ≠ [] ∧
        (DF.mk [("a", [(1 : ℚ)])] true).hasEmbCol = true) ∧
      generate_content "q" ["x", "y", "z"] "SMS" (fun _ => .error "quota") =
          .ok (errorPrefix ++ "quota") ∧
        find_similar_campaigns headSim (.error "quota")
          (DF.mk [("a", [(1 : ℚ)])] true) 3 = .error "quota" :=
  ⟨⟨by simp, rfl⟩,
    error_policy_amended "q" "SMS" "quota" "x" "y" "z" [] headSim
      (DF.mk [("a", [(1 : ℚ)])] true) 3 (by simp) rfl⟩

/-- C4 (code bug): the exemplar list produced from an absent index is
empty, and `generate_content` on an empty exemplar list raises IndexError
while building the prompt (the indexing happens before the try block), so
the generation path faults instead of degrading. -/
theorem generation_faults_on_absent_index (cosSim : Vec → Vec → ℚ)
    (embedQuery : Except String Vec) (df : DF) (n : ℕ) (q ch : String)
    (model : String → Except String String) (exemplars : List String)
    (habs : df.rows = [] ∨ df.hasEmbCol = false)
    (hex : find_similar_campaigns cosSim embedQuery df n = .ok exemplars) :
    generate_content q exemplars ch model =
      .error "IndexError: list index out of range" := by
  have h1 := (find_similar_absent cosSim embedQuery df n habs).symm.trans hex
  have h0 : exemplars = [] := by simpa using h1.symm
  subst h0
  rfl

/-- Witness for C4: absent index, concrete query, the prompt construction
faults. -/
theorem generation_faults_on_absent_index_witness :
    (((DF.mk [] false).rows = [] ∨ (DF.mk [] false).hasEmbCol = false) ∧
        find_similar_campaigns headSim (.error "down") (DF.mk [] false) 3 = .ok []) ∧
      generate_content "2-for-1 cinema rides" [] "SMS" (fun p => .ok p) =
        .error "IndexError: list index out of range" :=
  ⟨⟨Or.inl rfl, rfl⟩,
    generation_faults_on_absent_index headSim (.error "down") (DF.mk [] false) 3
      "2-for-1 cinema rides" "SMS" (fun p => .ok p) [] (Or.inl rfl) rfl⟩

/-! ## Theorems for the option-marker split -/

/-- When no marker matches anywhere, the scanner yields the single segment
`acc.reverse ++ l`. -/
lemma splitFuel_no_marker (fuel : ℕ) : ∀ (acc : List Char) (prev : Option Char)
    (l : List Char), l.length ≤ fuel → hasMarkerFrom prev l = false →
    splitFuel fuel acc prev l = [acc.reverse ++ l] := by
  induction fuel with
  | zero => intro acc prev l _ _; rfl
  | succ f ih =>
    intro acc prev l hlen hm
    cases l with
    | nil => simp [splitFuel]
    | cons c rest =>
      have hm2 : (boundaryOk prev && (matchMarker (c :: rest)).isSome) = false ∧
          hasMarkerFrom (some c) rest = false := by
        have := hm
        rw [hasMarkerFrom] at this
        exact Bool.or_eq_false_iff.mp this
      have hstep : splitFuel (f + 1) acc prev (c :: rest) =
          splitFuel f (c :: acc) (some c) rest := by
        rw [splitFuel]
        by_cases hb : boundaryOk prev = true
        · rw [if_pos hb]
          have hnone : matchMarker (c :: rest) = none := by
            rcases hmm : matchMarker (c :: rest) with _ | r
            · rfl
            · exfalso
              have : (boundaryOk prev && (matchMarker (c :: rest)).isSome) = true := by
                rw [hb, hmm]; rfl
              rw [this] at hm2
              exact Bool.true_eq_false.mp hm2.1
          rw [hnone]
        · rw [if_neg hb]
      have hr : rest.length ≤ f := by
        simp only [List.length_cons] at hlen
        omega
      rw [hstep, ih (c :: acc) (some c) rest hr hm2.2]
      simp

/-- `re.split` on marker-free text returns the whole text as the single
segment. -/
lemma splitMarker_no_marker (l : List Char) (h : hasMarkerFrom none l = false) :
    splitMarker l = [l] := by
  unfold splitMarker
  rw [splitFuel_no_marker (l.length + 1) [] none l (by omega) h]
  simp

/-- C7 amended, scoped to ASCII outputs (there the scanner's `\d`, `\b`
and case folding coincide with Python re's Unicode semantics, and
`pyStrip` is codepoint-exact everywhere): an output with zero
recognizable markers yields exactly one DraftOption holding the whole raw
text stripped when something non-whitespace remains, and zero
DraftOptions when the output is empty or whitespace-only; the spec's
example output yields exactly the three trimmed texts. -/
theorem option_split_ascii_amended :
    (∀ s tc : String, (∀ c ∈ s.toList, c.toNat ≤ 127) →
      hasMarkerFrom none s.toList = false →
      (pyStrip s.toList ≠ [] →
        makeDraftOptions s tc = [⟨1, String.mk (pyStrip s.toList), tc, "", false⟩]) ∧
      (pyStrip s.toList = [] → makeDraftOptions s tc = [])) ∧
    (∀ tc : String,
      makeDraftOptions "Option 1: Save big! Option 2: Ride smart! Option 3: Deal alert!" tc =
        [⟨1, "Save big!", tc, "", false⟩, ⟨2, "Ride smart!", tc, "", false⟩,
          ⟨3, "Deal alert!", tc, "", false⟩]) := by
  constructor
  · intro s tc _ h
    have hsplit := splitMarker_no_marker s.toList h
    constructor
    · intro hne
      have hne2 : String.mk (pyStrip s.data) ≠ "" :=
        fun he => hne (congrArg String.data he)
      unfold makeDraftOptions parseOptions
      rw [hsplit]
      simp only [List.map_cons, List.map_nil, List.filter, String.toList]
      rw [decide_eq_true hne2]
      rfl
    · intro he
      unfold makeDraftOptions parseOptions
      rw [hsplit]
      simp only [List.map_cons, List.map_nil, List.filter, String.toList] at he ⊢
      have hx : ({ data := pyStrip s.data } : String) = "" := by rw [he]
      rw [decide_eq_false (fun hne => hne hx)]
      rfl
  · intro tc
    have h3 : parseOptions "Option 1: Save big! Option 2: Ride smart! Option 3: Deal alert!" =
        ["Save big!", "Ride smart!", "Deal alert!"] := by decide
    unfold makeDraftOptions
    rw [h3]
    rfl

/-- Witness for the amended C7 on the ASCII marker-free output
"hello there". -/
theorem option_split_ascii_amended_witness :
    ((∀ c ∈ ("hello there" : String).toList, c.toNat ≤ 127) ∧
        hasMarkerFrom none ("hello there" : String).toList = false ∧
        pyStrip ("hello there" : String).toList ≠ []) ∧
      makeDraftOptions "hello there" "tc" = [⟨1, "hello there", "tc", "", false⟩] :=
  ⟨⟨by decide, by decide, by decide⟩,
    (option_split_ascii_amended.1 "hello there" "tc" (by decide) (by decide)).1 (by decide)⟩

/-- C7 counterexample: the empty generative output has zero recognizable
markers yet yields ZERO DraftOptions, not one. -/
theorem option_split_empty_counterexample :
    makeDraftOptions "" "tc" = [] ∧ (makeDraftOptions "" "tc").length ≠ 1 := by
  constructor
  · decide
  · decide

/-! ## Theorems for index construction and finalize -/

/-- When every corpus entry is present and non-empty, the content filter
keeps everything. -/
lemma filteredContents_eq (corpus : List (Option String))
    (hne : ∀ c ∈ corpus, ∃ s, c = some s ∧ s ≠ "") :
    filteredContents corpus = corpus.filterMap id := by
  unfold filteredContents
  apply List.filter_eq_self.mpr
  intro a ha
  rcases List.mem_filterMap.mp ha with ⟨o, ho, hoa⟩
  rcases hne o ho with ⟨s, rfl, hs⟩
  have hsa : s = a := Option.some.inj hoa
  subst hsa
  exact decide_eq_true hs

/-- When every corpus entry is present, `filterMap id` keeps one element
per entry. -/
lemma filterMap_id_length : ∀ (corpus : List (Option String)),
    (∀ c ∈ corpus, ∃ s, c = some s ∧ s ≠ "") →
    (corpus.filterMap id).length = corpus.length := by
  intro corpus
  induction corpus with
  | nil => intro _; rfl
  | cons o t ih =>
    intro hne
    rcases hne o (List.mem_cons_self o t) with ⟨s, hos, _⟩
    subst hos
    simp only [List.filterMap_cons, id, List.length_cons]
    rw [ih (fun c hc => hne c (List.mem_cons_of_mem _ hc))]

/-- C8: rows with empty content never reach the index, and when every
corpus entry has non-empty content the index holds exactly one row per
entry, whose contents are the original corpus contents in order. -/
theorem build_index_contents (corpus : List (Option String))
    (embedBatch : List String → List Vec)
    (hemb : ∀ l, (embedBatch l).length = l.length) :
    (∀ p ∈ initialize_and_index corpus embedBatch, p.1 ≠ "") ∧
      ((∀ c ∈ corpus, ∃ s, c = some s ∧ s ≠ "") →
        (initialize_and_index corpus embedBatch).length = corpus.length ∧
        (initialize_and_index corpus embedBatch).map Prod.fst = corpus.filterMap id) := by
  constructor
  · intro p hp
    have h1 : p.1 ∈ filteredContents corpus := by
      unfold initialize_and_index at hp
      rcases p with ⟨a, b⟩
      exact (List.of_mem_zip hp).1
    unfold filteredContents at h1
    simpa using List.of_mem_filter h1
  · intro hne
    have hfc := filteredContents_eq corpus hne
    have hlen2 := filterMap_id_length corpus hne
    constructor
    · unfold initialize_and_index
      rw [List.length_zip, hemb, hfc, hlen2, Nat.min_self]
    · unfold initialize_and_index
      rw [List.map_fst_zip _ _ (by rw [hemb]), hfc]

/-- Witness for C8 on a two-entry corpus. -/
theorem build_index_contents_witness :
    ((∀ l : List String, (constEmbed l).length = l.length) ∧
        (∀ c ∈ [some "ride deal", some "food fest"], ∃ s, c = some s ∧ s ≠ "")) ∧
      (initialize_and_index [some "ride deal", some "food fest"] constEmbed).length = 2 ∧
      (initialize_and_index [some "ride deal", some "food fest"] constEmbed).map Prod.fst =
        [some "ride deal", some "food fest"].filterMap id := by
  have hemb : ∀ l : List String, (constEmbed l).length = l.length := by
    intro l
    simp [constEmbed]
  have hne : ∀ c ∈ [some "ride deal", some "food fest"], ∃ s, c = some s ∧ s ≠ "" := by
    intro c hc
    rcases List.mem_cons.mp hc with rfl | hc2
    · exact ⟨"ride deal", rfl, by decide⟩
    · rcases List.mem_cons.mp hc2 with rfl | hc3
      · exact ⟨"food fest", rfl, by decide⟩
      · simp at hc3
  exact ⟨⟨hemb, hne⟩,
    (build_index_contents [some "ride deal", some "food fest"] constEmbed hemb).2 hne⟩

/-- C9 counterexample: finalizing a draft with status "Approved & Used"
appends a row to the past-campaigns corpus table, so finalize does NOT
leave that table unchanged. -/
theorem finalize_corpus_changed_counterexample :
    (finalize_campaign ⟨1, "ct", "tc", "ar", false⟩ "SMS" "Approved & Used" "u" "ts" "d"
        (StoreState.mk [] [])).corpusTable ≠
      (StoreState.mk [] []).corpusTable := by
  decide

/-- C9 amended: finalize performs appends only — one row appended to the
tracker table always, and one row appended to the past-campaigns corpus
table exactly when the status is "Approved & Used"; no row of either
table is updated or deleted. -/
theorem finalize_appends_only (opt : DraftOption)
    (channel status uuid timestamp today : String) (s : StoreState) :
    (finalize_campaign opt channel status uuid timestamp today s).trackerTable =
        s.trackerTable ++ [trackerRow opt channel status uuid timestamp] ∧
      (finalize_campaign opt channel status uuid timestamp today s).corpusTable =
        s.corpusTable ++
          (if status = "Approved & Used" then [mainRow opt today] else []) := by
  unfold finalize_campaign
  split_ifs with h <;> simp
